import Mathlib

/-!
Shallow embedding of `src/apps/app_agent_pool.c` (Asterisk call-center agent
pool): the agent definition snapshot (`struct agent_cfg` / `struct agents_cfg`),
the runtime agent record (`struct agent_pvt`), and the mark-and-sweep
reconciliation (`agents_mark`, `agents_post_apply_config`, `agents_sweep`),
plus the device-state query (`agent_pvt_devstate_get`) and the reload entry
point (`reload`).

The ao2 containers (red-black trees keyed by `username`) are embedded as lists
of records kept in strictly ascending key order; `ao2_find(c, key, OBJ_KEY)`
is first-match lookup, `ao2_link` follows the container's duplicate-handling
allocation option (`AO2_CONTAINER_ALLOC_OPT_DUPS_REPLACE` for the runtime
`agents` registry in `load_module`, `AO2_CONTAINER_ALLOC_OPT_DUPS_REJECT` for
the config `agents` container in `agents_cfg_alloc`).  Locking is not
modelled: each callback's critical section is a single atomic step here.
-/

namespace AgentPool

/-- Device-state enumeration (`enum ast_device_state` of devicestate.h).  The
module assigns `UNAVAILABLE` to a freshly created (logged-out) agent and
reports `INVALID` for an id with no record; the spec's LOGGED_OUT / INVALID
map to `UNAVAILABLE` / `INVALID` here. -/
inductive ast_device_state where
  | UNKNOWN
  | NOT_INUSE
  | INUSE
  | BUSY
  | INVALID
  | UNAVAILABLE
  | RINGING
  | RINGINUSE
  | ONHOLD
  deriving DecidableEq, Repr

/-- One agent definition from `agents.conf` (`struct agent_cfg`).  String
fields start as `""` (`ast_string_field_init`), numeric fields as 0 and flag
fields as false (`ao2_alloc_options` zero-fills); option handlers fill them
in afterwards. -/
structure agent_cfg where
  username : String
  password : String := ""
  full_name : String := ""
  dtmf_accept : String := ""
  dtmf_end : String := ""
  beep_sound : String := ""
  moh : String := ""
  save_calls_in : String := ""
  record_format : String := ""
  group : Nat := 0
  max_login_tries : Nat := 0
  auto_logoff : Nat := 0
  wrapup_time : Nat := 0
  ack_call : Bool := false
  end_call : Bool := false
  record_agent_calls : Bool := false
  deriving DecidableEq, Repr

/-- `agent_cfg_alloc(name)`: a zero-initialised `agent_cfg` whose `username`
string field is set to `name`.  (The allocation-failure path returns NULL in
C and is not modelled.) -/
def agent_cfg_alloc (name : String) : agent_cfg :=
  { username := name }

/-- `ast_strlen_zero`: the C helper is true for a NULL or empty string; the
NULL case is collapsed into the empty string. -/
def ast_strlen_zero (s : String) : Bool :=
  s.isEmpty

/-- `agent_custom_beep_handler(opt, var, obj)`: rejects an empty option value
(C return `-1`, embedded as `none`); for a non-empty value it executes
`ast_string_field_set(cfg, beep_sound, "")`, i.e. it stores the empty string
and discards `var->value`. -/
def agent_custom_beep_handler (value : String) (cfg : agent_cfg) : Option agent_cfg :=
  if ast_strlen_zero value then
    none
  else
    some { cfg with beep_sound := "" }

/-- `agent_savecallsin_handler`: empty value stores `""`; otherwise the value
with a leading and trailing `/` added when missing. -/
def agent_savecallsin_handler (value : String) (cfg : agent_cfg) : agent_cfg :=
  if ast_strlen_zero value then
    { cfg with save_calls_in := "" }
  else
    { cfg with save_calls_in :=
        (if value.front = '/' then "" else "/") ++ value ++
        (if value.back = '/' then "" else "/") }

/-- Runtime agent record (`struct agent_pvt`).  `chan` is the logged-in
channel (`NULL` when not logged in), embedded as an opaque channel id;
`cfg` is the bound definition reference; `the_mark` / `dead` are the
mark-and-sweep bits; the C `time_t` / `struct timeval` timestamps are
embedded as integers. -/
structure agent_pvt where
  username : String
  override_dtmf_accept : String
  override_dtmf_end : String
  flags : Nat
  override_max_login_tries : Nat
  override_auto_logoff : Nat
  override_wrapup_time : Nat
  override_ack_call : Bool
  override_end_call : Bool
  the_mark : Bool
  dead : Bool
  we_joined : Bool
  state : ast_device_state
  start_login : Int
  start_call : Int
  last_disconnect : Int
  chan : Option Nat
  cfg : agent_cfg
  deriving DecidableEq, Repr

/-- `agent_pvt_new(cfg)`: `ao2_alloc` zero-fills the record, then `username`
is set from the config, the config reference is stored, and the state is set
to `AST_DEVICE_UNAVAILABLE`.  (The NULL allocation-failure path is not
modelled.) -/
def agent_pvt_new (cfg : agent_cfg) : agent_pvt :=
  { username := cfg.username
    override_dtmf_accept := ""
    override_dtmf_end := ""
    flags := 0
    override_max_login_tries := 0
    override_auto_logoff := 0
    override_wrapup_time := 0
    override_ack_call := false
    override_end_call := false
    the_mark := false
    dead := false
    we_joined := false
    state := ast_device_state.UNAVAILABLE
    start_login := 0
    start_call := 0
    last_disconnect := 0
    chan := none
    cfg := cfg }

/-- `ao2_find(agents, agent_id, OBJ_KEY)`: exact-key lookup in the registry
(`agent_pvt_sort_cmp` with `OBJ_KEY` compares `username` to the key). -/
def ao2_find_key (agents : List agent_pvt) (key : String) : Option agent_pvt :=
  agents.find? (fun a => a.username == key)

/-- `ao2_link` into the runtime `agents` container, which `load_module`
allocates with `AO2_CONTAINER_ALLOC_OPT_DUPS_REPLACE`: ordered insert by
`username`; an object whose key is already present replaces the existing
object.  (astobj2 itself is outside `src/`; the duplicate behaviour follows
the documented meaning of the `DUPS_REPLACE` allocation option chosen at
`load_module`.) -/
def ao2_link_replace (agents : List agent_pvt) (agent : agent_pvt) : List agent_pvt :=
  match agents with
  | [] => [agent]
  | a :: rest =>
    if agent.username < a.username then
      agent :: a :: rest
    else if agent.username = a.username then
      agent :: rest
    else
      a :: ao2_link_replace rest agent

/-- `ao2_link` into the config `agents` container, which `agents_cfg_alloc`
allocates with `AO2_CONTAINER_ALLOC_OPT_DUPS_REJECT`: ordered insert by
`username`; the link fails (`none`) if the key is already present. -/
def ao2_link_reject (cfgs : List agent_cfg) (cfg : agent_cfg) : Option (List agent_cfg) :=
  match cfgs with
  | [] => some [cfg]
  | c :: rest =>
    if cfg.username < c.username then
      some (cfg :: c :: rest)
    else if cfg.username = c.username then
      none
    else
      (ao2_link_reject rest cfg).map (fun l => c :: l)

/-- `agent_pvt_devstate_get(agent_id)`: return the found agent's `state`,
else `AST_DEVICE_INVALID`. -/
def agent_pvt_devstate_get (agents : List agent_pvt) (agent_id : String) : ast_device_state :=
  match ao2_find_key agents agent_id with
  | some agent => agent.state
  | none => ast_device_state.INVALID

/-- `agent_mark` callback body: under the agent's lock, set `the_mark`. -/
def agent_mark (agent : agent_pvt) : agent_pvt :=
  { agent with the_mark := true }

/-- `agents_mark()`: `ao2_callback(agents, 0, agent_mark, NULL)` visits every
record and marks it. -/
def agents_mark (agents : List agent_pvt) : List agent_pvt :=
  agents.map agent_mark

/-- `agent_sweep` callback body: a still-marked agent has its mark cleared
and `dead` set, and is matched for unlinking exactly when it has no logged-in
channel; an unmarked agent is resurrected (`dead := 0`).  The `Bool`
component is `CMP_MATCH`. -/
def agent_sweep (agent : agent_pvt) : agent_pvt × Bool :=
  if agent.the_mark then
    ({ agent with the_mark := false, dead := true }, agent.chan.isNone)
  else
    ({ agent with dead := false }, false)

/-- `agents_sweep()`: `ao2_callback(agents, OBJ_MULTIPLE | OBJ_UNLINK |
OBJ_NODATA, agent_sweep, NULL)` visits every record in container order and
unlinks the matched ones. -/
def agents_sweep (agents : List agent_pvt) : List agent_pvt :=
  match agents with
  | [] => []
  | a :: rest =>
    if (agent_sweep a).2 then
      agents_sweep rest
    else
      (agent_sweep a).1 :: agents_sweep rest

/-- The per-definition body of the `agents_post_apply_config` loop: look up
the definition's id in the registry; if found, clear that record's mark
(under its lock) and continue; otherwise build a new record from the
definition and link it. -/
def agents_apply_cfg (agents : List agent_pvt) (cfg : agent_cfg) : List agent_pvt :=
  match ao2_find_key agents cfg.username with
  | some _ => clear_mark_first agents cfg.username
  | none => ao2_link_replace agents (agent_pvt_new cfg)
where
  /-- Clearing the mark of the record `ao2_find` returned: the first (and,
  with unique keys, only) record whose `username` equals the key. -/
  clear_mark_first : List agent_pvt → String → List agent_pvt
    | [], _ => []
    | a :: rest, key =>
      if a.username == key then
        { a with the_mark := false } :: rest
      else
        a :: clear_mark_first rest key

/-- `agents_post_apply_config()`: mark every record, iterate the new
snapshot's definitions (the `cfgs->agents` container, passed here as the
list `cfgs` in container order), match-or-insert each, then sweep.  The C
function reads the snapshot from the global `cfg_handle`; it is a parameter
here. -/
def agents_post_apply_config (agents : List agent_pvt) (cfgs : List agent_cfg) :
    List agent_pvt :=
  agents_sweep (cfgs.foldl agents_apply_cfg (agents_mark agents))

/-- Modelled from the spec: the config framework pass of
`aco_process_config` (config_options.c, not under `src/`) that builds the
snapshot's `agents` container.  Each config category allocates an
`agent_cfg` via `agent_cfg_alloc` and links it into the container built by
`agents_cfg_alloc` with `DUPS_REJECT`; per the spec, a rejected link
(duplicate id) invalidates the whole snapshot, so the build returns `none`.
Starts from the accumulator `acc` (the container built so far). -/
def agents_cfg_build_from (acc : List agent_cfg) : List String → Option (List agent_cfg)
  | [] => some acc
  | name :: rest =>
    match ao2_link_reject acc (agent_cfg_alloc name) with
    | none => none
    | some acc2 => agents_cfg_build_from acc2 rest

/-- Modelled from the spec: building a whole snapshot container from the
list of config category names (agent ids), starting from the empty container
`agents_cfg_alloc` creates. -/
def agents_cfg_build (names : List String) : Option (List agent_cfg) :=
  agents_cfg_build_from [] names

/-- Module state visible to `reload`: the applied snapshot (`cfg_handle`)
and the runtime registry (`agents`). -/
structure module_state where
  cfgs : List agent_cfg
  agents : List agent_pvt
  deriving DecidableEq, Repr

/-- `reload()`: run `aco_process_config`.  On `ACO_PROCESS_ERROR` (here: the
snapshot build failed) return `-1` and keep the config and registry already
in place; on success the new snapshot is applied and
`agents_post_apply_config` reconciles the registry. -/
def reload (st : module_state) (categories : List String) : Int × module_state :=
  match agents_cfg_build categories with
  | none => (-1, st)
  | some cfgs =>
    (0, { cfgs := cfgs, agents := agents_post_apply_config st.agents cfgs })

/-- Spec-level device states (§4.5): LOGGED_IN, LOGGED_OUT, INVALID. -/
inductive SpecDeviceState where
  | LOGGED_IN
  | LOGGED_OUT
  | INVALID
  deriving DecidableEq, Repr

/-- Abstraction from the implementation device state to the spec's three
states: `INVALID` is "no record"; `UNAVAILABLE` is the logged-out state the
module assigns; every other state belongs to a logged-in agent. -/
def spec_state : ast_device_state → SpecDeviceState
  | ast_device_state.INVALID => SpecDeviceState.INVALID
  | ast_device_state.UNAVAILABLE => SpecDeviceState.LOGGED_OUT
  | _ => SpecDeviceState.LOGGED_IN

/-- The registry invariant maintained by the rbtree container: record keys
strictly ascending (hence unique). -/
def agents_sorted (l : List agent_pvt) : Prop :=
  (l.map agent_pvt.username).Pairwise (fun a b => a < b)

/-- The config container invariant: definition keys strictly ascending. -/
def cfgs_sorted (l : List agent_cfg) : Prop :=
  (l.map agent_cfg.username).Pairwise (fun a b => a < b)

/-- The first definition in the snapshot list carrying a given id, i.e. the
one whose processing decides that id's fate in the match/insert loop. -/
def first_cfg_for (cs : List agent_cfg) (k : String) : Option agent_cfg :=
  cs.find? (fun c => c.username == k)

/-- The record surviving the match phase for a given key: the existing record
with its mark cleared, or a freshly constructed one. -/
def survivor (l : List agent_pvt) (c : agent_cfg) (k : String) : agent_pvt :=
  match ao2_find_key l k with
  | some a => { a with the_mark := false }
  | none => agent_pvt_new c

/-- A concrete logged-in record for agent id `1001` (channel attached). -/
def w_agent : agent_pvt :=
  { agent_pvt_new (agent_cfg_alloc "1001") with chan := some 7 }

/-- A concrete logged-out record for agent id `1001` (no channel). -/
def w_idle : agent_pvt :=
  agent_pvt_new (agent_cfg_alloc "1001")

/-- A concrete dead, still-logged-in record for agent id `1001`. -/
def w_dead : agent_pvt :=
  { agent_pvt_new (agent_cfg_alloc "1001") with dead := true, chan := some 3 }

/-- A concrete registry record for agent id `1001` carrying a visible state
so that replacement is observable. -/
def c9_old : agent_pvt :=
  { agent_pvt_new (agent_cfg_alloc "1001") with state := ast_device_state.INUSE }

/-- A second, distinct record for the same agent id `1001`. -/
def c9_new : agent_pvt :=
  agent_pvt_new (agent_cfg_alloc "1001")

/-! ### Helper lemmas about the container operations -/

theorem find_key_eq_none_iff (l : List agent_pvt) (k : String) :
    ao2_find_key l k = none ↔ k ∉ l.map agent_pvt.username := by
  simp [ao2_find_key, List.find?_eq_none, List.mem_map]

theorem agent_mark_username (a : agent_pvt) : (agent_mark a).username = a.username := rfl

theorem agents_mark_find (l : List agent_pvt) (k : String) :
    ao2_find_key (agents_mark l) k = (ao2_find_key l k).map agent_mark := by
  induction l with
  | nil => rfl
  | cons a rest ih =>
    by_cases h : a.username = k
    · simp [ao2_find_key, agents_mark, agent_mark, List.find?_cons, h]
    · simpa [ao2_find_key, agents_mark, agent_mark, List.find?_cons, h] using ih

theorem agents_mark_keys (l : List agent_pvt) :
    (agents_mark l).map agent_pvt.username = l.map agent_pvt.username := by
  induction l with
  | nil => rfl
  | cons a rest ih => simp [agents_mark, agent_mark]

theorem clear_mark_keys (l : List agent_pvt) (k : String) :
    (agents_apply_cfg.clear_mark_first l k).map agent_pvt.username
      = l.map agent_pvt.username := by
  induction l with
  | nil => rfl
  | cons a rest ih =>
    by_cases h : a.username = k
    · simp [agents_apply_cfg.clear_mark_first, h]
    · simpa [agents_apply_cfg.clear_mark_first, h] using ih

theorem clear_mark_find_self (l : List agent_pvt) (k : String) :
    ao2_find_key (agents_apply_cfg.clear_mark_first l k) k
      = (ao2_find_key l k).map (fun a => { a with the_mark := false }) := by
  induction l with
  | nil => rfl
  | cons a rest ih =>
    by_cases h : a.username = k
    · simp [ao2_find_key, agents_apply_cfg.clear_mark_first, List.find?_cons, h]
    · simpa [ao2_find_key, agents_apply_cfg.clear_mark_first, List.find?_cons, h] using ih

theorem clear_mark_find_other (l : List agent_pvt) (k k' : String) (hne : k' ≠ k) :
    ao2_find_key (agents_apply_cfg.clear_mark_first l k) k' = ao2_find_key l k' := by
  induction l with
  | nil => rfl
  | cons a rest ih =>
    by_cases h : a.username = k
    · subst h
      simp [ao2_find_key, agents_apply_cfg.clear_mark_first, List.find?_cons,
        Ne.symm hne, hne]
    · by_cases h' : a.username = k'
      · simp [ao2_find_key, agents_apply_cfg.clear_mark_first, List.find?_cons, h, h',
          hne]
      · simpa [ao2_find_key, agents_apply_cfg.clear_mark_first, List.find?_cons, h, h',
          hne] using ih

theorem link_replace_find_self (l : List agent_pvt) (a : agent_pvt) :
    ao2_find_key (ao2_link_replace l a) a.username = some a := by
  induction l with
  | nil => simp [ao2_link_replace, ao2_find_key, List.find?_cons]
  | cons c rest ih =>
    rcases lt_trichotomy a.username c.username with h | h | h
    · simp [ao2_link_replace, h, ao2_find_key, List.find?_cons]
    · simp [ao2_link_replace, h, lt_irrefl, ao2_find_key, List.find?_cons]
    · have h1 : ¬ a.username < c.username := asymm h
      have h2 : a.username ≠ c.username := Ne.symm (ne_of_lt h)
      have h3 : c.username ≠ a.username := ne_of_lt h
      simpa [ao2_link_replace, h1, h2, ao2_find_key, List.find?_cons, h3] using ih

theorem link_replace_find_other (l : List agent_pvt) (a : agent_pvt) (k : String)
    (hne : k ≠ a.username) :
    ao2_find_key (ao2_link_replace l a) k = ao2_find_key l k := by
  induction l with
  | nil => simp [ao2_link_replace, ao2_find_key, List.find?_cons, Ne.symm hne]
  | cons c rest ih =>
    rcases lt_trichotomy a.username c.username with h | h | h
    · simp [ao2_link_replace, h, ao2_find_key, List.find?_cons, Ne.symm hne]
    · have hc : c.username ≠ k := by
        rw [← h]; exact Ne.symm hne
      simp [ao2_link_replace, h, lt_irrefl, ao2_find_key, List.find?_cons, hc,
        Ne.symm hne]
    · by_cases hck : c.username = k
      · subst hck
        have h1 : ¬ a.username < c.username := asymm h
        have h2 : a.username ≠ c.username := Ne.symm (ne_of_lt h)
        simp [ao2_link_replace, h1, h2, ao2_find_key, List.find?_cons]
      · have h1 : ¬ a.username < c.username := asymm h
        have h2 : a.username ≠ c.username := Ne.symm (ne_of_lt h)
        simpa [ao2_link_replace, h1, h2, ao2_find_key, List.find?_cons, hck] using ih

theorem link_replace_keys_mem (l : List agent_pvt) (a : agent_pvt) (m : String) :
    m ∈ (ao2_link_replace l a).map agent_pvt.username ↔
      m = a.username ∨ m ∈ l.map agent_pvt.username := by
  induction l with
  | nil => simp [ao2_link_replace]
  | cons c rest ih =>
    rcases lt_trichotomy a.username c.username with h | h | h
    · simp [ao2_link_replace, h]
    · have h1 : ¬ a.username < c.username := by rw [h]; exact lt_irrefl _
      simp only [ao2_link_replace, if_neg h1, if_pos h]
      simp only [List.map_cons, List.mem_cons]
      constructor
      · rintro (hm | hm)
        · exact Or.inl hm
        · exact Or.inr (Or.inr hm)
      · rintro (hm | hm | hm)
        · exact Or.inl hm
        · exact Or.inl (by rw [hm, h])
        · exact Or.inr hm
    · have h1 : ¬ a.username < c.username := asymm h
      have h2 : a.username ≠ c.username := Ne.symm (ne_of_lt h)
      simp only [ao2_link_replace, if_neg h1, if_neg h2, List.map_cons, List.mem_cons]
      rw [ih]
      tauto

theorem link_replace_sorted (l : List agent_pvt) (a : agent_pvt)
    (hs : agents_sorted l) : agents_sorted (ao2_link_replace l a) := by
  induction l with
  | nil => simp [ao2_link_replace, agents_sorted]
  | cons c rest ih =>
    rw [agents_sorted, List.map_cons, List.pairwise_cons] at hs
    obtain ⟨hc, hrest⟩ := hs
    have hrest' : agents_sorted rest := hrest
    rcases lt_trichotomy a.username c.username with h | h | h
    · rw [agents_sorted]
      simp only [ao2_link_replace, if_pos h, List.map_cons, List.pairwise_cons]
      refine ⟨?_, ?_, hrest⟩
      · intro m hm
        simp only [List.map_cons, List.mem_cons] at hm
        rcases hm with hm | hm
        · rw [hm]; exact h
        · exact lt_trans h (hc m hm)
      · exact hc
    · rw [agents_sorted]
      have h1 : ¬ a.username < c.username := by rw [h]; exact lt_irrefl _
      simp only [ao2_link_replace, if_neg h1, if_pos h, List.map_cons,
        List.pairwise_cons]
      refine ⟨?_, hrest⟩
      intro m hm
      rw [h]
      exact hc m hm
    · rw [agents_sorted]
      have h1 : ¬ a.username < c.username := asymm h
      have h2 : a.username ≠ c.username := Ne.symm (ne_of_lt h)
      simp only [ao2_link_replace, if_neg h1, if_neg h2, List.map_cons,
        List.pairwise_cons]
      refine ⟨?_, ih hrest'⟩
      intro m hm
      have := (link_replace_keys_mem rest a m).1 (by simpa using hm)
      rcases this with hm' | hm'
      · rw [hm']; exact h
      · exact hc m hm'

theorem find_key_some_username (l : List agent_pvt) (k : String) (a : agent_pvt)
    (h : ao2_find_key l k = some a) : a.username = k := by
  have := List.find?_some h
  simpa using this

theorem first_cfg_for_some_username (cs : List agent_cfg) (k : String) (c : agent_cfg)
    (h : first_cfg_for cs k = some c) : c.username = k := by
  have := List.find?_some h
  simpa using this

theorem first_cfg_for_eq_none_iff (cs : List agent_cfg) (k : String) :
    first_cfg_for cs k = none ↔ k ∉ cs.map agent_cfg.username := by
  simp [first_cfg_for, List.find?_eq_none, List.mem_map]

/-- Rewriting a false mark to false is the identity. -/
theorem mark_update_of_false (a : agent_pvt) (h : a.the_mark = false) :
    ({ a with the_mark := false } : agent_pvt) = a := by
  cases a
  simp_all

theorem agent_sweep_username (a : agent_pvt) :
    (agent_sweep a).1.username = a.username := by
  rw [agent_sweep]
  split <;> rfl

theorem survivor_mark_false (l : List agent_pvt) (c : agent_cfg) (k : String) :
    (survivor l c k).the_mark = false := by
  rw [survivor]
  cases ao2_find_key l k <;> rfl

theorem apply_cfg_find_self (l : List agent_pvt) (c : agent_cfg) :
    ao2_find_key (agents_apply_cfg l c) c.username = some (survivor l c c.username) := by
  rw [agents_apply_cfg, survivor]
  cases h : ao2_find_key l c.username with
  | some a =>
    have := clear_mark_find_self l c.username
    rw [h] at this
    simpa using this
  | none =>
    exact link_replace_find_self l (agent_pvt_new c)

theorem apply_cfg_find_other (l : List agent_pvt) (c : agent_cfg) (k : String)
    (hne : k ≠ c.username) :
    ao2_find_key (agents_apply_cfg l c) k = ao2_find_key l k := by
  rw [agents_apply_cfg]
  cases h : ao2_find_key l c.username with
  | some a => exact clear_mark_find_other l c.username k hne
  | none => exact link_replace_find_other l (agent_pvt_new c) k hne

theorem apply_cfg_sorted (l : List agent_pvt) (c : agent_cfg)
    (hs : agents_sorted l) : agents_sorted (agents_apply_cfg l c) := by
  rw [agents_apply_cfg]
  cases h : ao2_find_key l c.username with
  | some a =>
    rw [agents_sorted, clear_mark_keys]
    exact hs
  | none => exact link_replace_sorted l (agent_pvt_new c) hs

theorem apply_cfgs_sorted (cs : List agent_cfg) (l : List agent_pvt)
    (hs : agents_sorted l) : agents_sorted (cs.foldl agents_apply_cfg l) := by
  induction cs generalizing l with
  | nil => exact hs
  | cons c cs ih =>
    rw [List.foldl_cons]
    exact ih _ (apply_cfg_sorted l c hs)

theorem apply_cfgs_find (cs : List agent_cfg) (l : List agent_pvt) (k : String) :
    ao2_find_key (cs.foldl agents_apply_cfg l) k =
      match first_cfg_for cs k with
      | none => ao2_find_key l k
      | some c => some (survivor l c k) := by
  induction cs generalizing l with
  | nil => simp [first_cfg_for]
  | cons c cs ih =>
    rw [List.foldl_cons, ih]
    by_cases hk : c.username = k
    · subst hk
      have hfirst : first_cfg_for (c :: cs) c.username = some c := by
        simp [first_cfg_for, List.find?_cons]
      rw [hfirst]
      cases hf : first_cfg_for cs c.username with
      | none =>
        exact apply_cfg_find_self l c
      | some c' =>
        have : (survivor (agents_apply_cfg l c) c' c.username)
            = survivor l c c.username := by
          rw [survivor, apply_cfg_find_self l c]
          exact mark_update_of_false _ (survivor_mark_false l c c.username)
        show some (survivor (agents_apply_cfg l c) c' c.username)
          = some (survivor l c c.username)
        rw [this]
    · have hfirst : first_cfg_for (c :: cs) k = first_cfg_for cs k := by
        simp [first_cfg_for, List.find?_cons, hk]
      rw [hfirst]
      cases hf : first_cfg_for cs k with
      | none => exact apply_cfg_find_other l c k (Ne.symm hk)
      | some c' =>
        have : survivor (agents_apply_cfg l c) c' k = survivor l c' k := by
          rw [survivor, survivor, apply_cfg_find_other l c k (Ne.symm hk)]
        show some (survivor (agents_apply_cfg l c) c' k) = some (survivor l c' k)
        rw [this]

theorem agents_sweep_keys_sublist (l : List agent_pvt) :
    ((agents_sweep l).map agent_pvt.username).Sublist (l.map agent_pvt.username) := by
  induction l with
  | nil => simp [agents_sweep]
  | cons a rest ih =>
    rw [agents_sweep]
    split
    · exact ih.cons a.username
    · rw [List.map_cons, List.map_cons, agent_sweep_username]
      exact ih.cons₂ a.username

theorem agents_sweep_sorted (l : List agent_pvt) (hs : agents_sorted l) :
    agents_sorted (agents_sweep l) :=
  List.Pairwise.sublist (agents_sweep_keys_sublist l) hs

theorem agents_sweep_find (l : List agent_pvt) (hs : agents_sorted l) (k : String) :
    ao2_find_key (agents_sweep l) k =
      match ao2_find_key l k with
      | none => none
      | some a => if (agent_sweep a).2 then none else some (agent_sweep a).1 := by
  induction l with
  | nil => rfl
  | cons a rest ih =>
    rw [agents_sorted, List.map_cons, List.pairwise_cons] at hs
    obtain ⟨hb, hrest⟩ := hs
    by_cases hk : a.username = k
    · subst hk
      have hnotin : a.username ∉ rest.map agent_pvt.username := by
        intro hmem
        exact lt_irrefl _ (hb _ hmem)
      have hresnone : ao2_find_key (agents_sweep rest) a.username = none := by
        rw [find_key_eq_none_iff]
        intro hmem
        exact hnotin (List.Sublist.mem hmem (agents_sweep_keys_sublist rest))
      have hfa : ao2_find_key (a :: rest) a.username = some a := by
        simp [ao2_find_key, List.find?_cons]
      rw [agents_sweep]
      split
      next hrem =>
        rw [hresnone]
        simp [hfa, hrem]
      next hkeep =>
        have hl : ao2_find_key ((agent_sweep a).1 :: agents_sweep rest) a.username
            = some (agent_sweep a).1 := by
          simp [ao2_find_key, List.find?_cons, agent_sweep_username]
        simp [hfa, hl, hkeep]
    · have hskip : ao2_find_key (a :: rest) k = ao2_find_key rest k := by
        simp [ao2_find_key, List.find?_cons, hk]
      rw [agents_sweep]
      split
      · rw [ih hrest, hskip]
      · have : ao2_find_key ((agent_sweep a).1 :: agents_sweep rest) k
            = ao2_find_key (agents_sweep rest) k := by
          simp [ao2_find_key, List.find?_cons, agent_sweep_username, hk]
        rw [this, ih hrest, hskip]

theorem post_apply_sorted (l : List agent_pvt) (cs : List agent_cfg)
    (hs : agents_sorted l) : agents_sorted (agents_post_apply_config l cs) := by
  rw [agents_post_apply_config]
  apply agents_sweep_sorted
  apply apply_cfgs_sorted
  rw [agents_sorted, agents_mark_keys]
  exact hs

/-- Master characterization of one reconciliation pass, per id `k`:
an id in both registry and snapshot keeps its record with mark cleared and
dead cleared; an id only in the snapshot gets a fresh record; an id only in
the registry is removed when it has no channel, else kept dead; an id in
neither stays absent. -/
theorem post_apply_find (l : List agent_pvt) (cs : List agent_cfg) (k : String)
    (hs : agents_sorted l) :
    ao2_find_key (agents_post_apply_config l cs) k =
      match first_cfg_for cs k, ao2_find_key l k with
      | some _, some a => some { a with the_mark := false, dead := false }
      | some c, none => some (agent_pvt_new c)
      | none, some a =>
        if a.chan = none then none
        else some { a with the_mark := false, dead := true }
      | none, none => none := by
  have hs1 : agents_sorted (agents_mark l) := by
    rw [agents_sorted, agents_mark_keys]
    exact hs
  have hs2 : agents_sorted (cs.foldl agents_apply_cfg (agents_mark l)) :=
    apply_cfgs_sorted cs (agents_mark l) hs1
  rw [agents_post_apply_config, agents_sweep_find _ hs2 k, apply_cfgs_find]
  cases hf : first_cfg_for cs k with
  | none =>
    rw [agents_mark_find]
    cases hl : ao2_find_key l k with
    | none => rfl
    | some a =>
      show (if (agent_sweep (agent_mark a)).2 then none
            else some (agent_sweep (agent_mark a)).1)
        = if a.chan = none then none
          else some { a with the_mark := false, dead := true }
      have hsw : agent_sweep (agent_mark a)
          = ({ a with the_mark := false, dead := true }, a.chan.isNone) := by
        rw [agent_sweep]
        simp [agent_mark]
      rw [hsw]
      cases hc : a.chan <;> simp [hc]
  | some c =>
    cases hl : ao2_find_key l k with
    | some a =>
      have hsv : survivor (agents_mark l) c k = { a with the_mark := false } := by
        rw [survivor, agents_mark_find, hl]
        rfl
      show (if (agent_sweep (survivor (agents_mark l) c k)).2 then none
            else some (agent_sweep (survivor (agents_mark l) c k)).1)
        = some { a with the_mark := false, dead := false }
      rw [hsv, agent_sweep]
      simp
    | none =>
      have hsv : survivor (agents_mark l) c k = agent_pvt_new c := by
        rw [survivor, agents_mark_find, hl]
        rfl
      show (if (agent_sweep (survivor (agents_mark l) c k)).2 then none
            else some (agent_sweep (survivor (agents_mark l) c k)).1)
        = some (agent_pvt_new c)
      rw [hsv, agent_sweep]
      simp [agent_pvt_new]

theorem agent_sweep_mark_false (a : agent_pvt) : (agent_sweep a).1.the_mark = false := by
  rw [agent_sweep]
  split
  · rfl
  · next h => simpa using h

theorem agents_sweep_mem_mark_false (l : List agent_pvt) (a : agent_pvt)
    (ha : a ∈ agents_sweep l) : a.the_mark = false := by
  induction l with
  | nil => simp [agents_sweep] at ha
  | cons c rest ih =>
    rw [agents_sweep] at ha
    split at ha
    · exact ih ha
    · rcases List.mem_cons.mp ha with h | h
      · rw [h]
        exact agent_sweep_mark_false c
      · exact ih h

theorem link_reject_keys_mem (cfgs : List agent_cfg) (c : agent_cfg)
    (l : List agent_cfg) (h : ao2_link_reject cfgs c = some l) (m : String) :
    m ∈ l.map agent_cfg.username ↔
      m = c.username ∨ m ∈ cfgs.map agent_cfg.username := by
  induction cfgs generalizing l with
  | nil =>
    rw [ao2_link_reject] at h
    cases h
    simp
  | cons d rest ih =>
    rw [ao2_link_reject] at h
    split at h
    · cases h
      simp
    · split at h
      · simp at h
      · rcases Option.map_eq_some'.mp h with ⟨l', hl', rfl⟩
        simp only [List.map_cons, List.mem_cons]
        rw [ih l' hl']
        tauto

theorem link_reject_not_mem (cfgs : List agent_cfg) (c : agent_cfg)
    (l : List agent_cfg) (hs : cfgs_sorted cfgs) (h : ao2_link_reject cfgs c = some l) :
    c.username ∉ cfgs.map agent_cfg.username := by
  induction cfgs generalizing l with
  | nil => simp
  | cons d rest ih =>
    rw [cfgs_sorted, List.map_cons, List.pairwise_cons] at hs
    obtain ⟨hb, hrest⟩ := hs
    rw [ao2_link_reject] at h
    split at h
    · next hlt =>
      simp only [List.map_cons, List.mem_cons]
      rintro (heq | hmem)
      · exact absurd heq (ne_of_lt hlt)
      · exact absurd hlt (asymm (hb _ hmem))
    · split at h
      · simp at h
      · next hlt heq =>
        rcases Option.map_eq_some'.mp h with ⟨l', hl', rfl⟩
        simp only [List.map_cons, List.mem_cons]
        rintro (hm | hm)
        · exact heq hm
        · exact ih l' hrest hl' hm

theorem link_reject_sorted (cfgs : List agent_cfg) (c : agent_cfg)
    (l : List agent_cfg) (hs : cfgs_sorted cfgs) (h : ao2_link_reject cfgs c = some l) :
    cfgs_sorted l := by
  induction cfgs generalizing l with
  | nil =>
    rw [ao2_link_reject] at h
    cases h
    simp [cfgs_sorted]
  | cons d rest ih =>
    rw [cfgs_sorted, List.map_cons, List.pairwise_cons] at hs
    obtain ⟨hb, hrest⟩ := hs
    rw [ao2_link_reject] at h
    split at h
    · next hlt =>
      cases h
      rw [cfgs_sorted]
      simp only [List.map_cons, List.pairwise_cons]
      refine ⟨?_, hb, hrest⟩
      intro m hm
      simp only [List.map_cons, List.mem_cons] at hm
      rcases hm with hm | hm
      · rw [hm]; exact hlt
      · exact lt_trans hlt (hb _ hm)
    · next hlt =>
      split at h
      · simp at h
      · next heq =>
        have hgt : d.username < c.username := by
          rcases lt_trichotomy c.username d.username with h' | h' | h'
          · exact absurd h' hlt
          · exact absurd h' heq
          · exact h'
        rcases Option.map_eq_some'.mp h with ⟨l', hl', rfl⟩
        rw [cfgs_sorted]
        simp only [List.map_cons, List.pairwise_cons]
        refine ⟨?_, ih l' hrest hl'⟩
        intro m hm
        rcases (link_reject_keys_mem rest c l' hl' m).mp hm with hm' | hm'
        · rw [hm']; exact hgt
        · exact hb _ hm'

theorem build_from_nodup (names : List String) (acc : List agent_cfg)
    (l : List agent_cfg) (hs : cfgs_sorted acc)
    (h : agents_cfg_build_from acc names = some l) :
    names.Nodup ∧ ∀ n ∈ names, n ∉ acc.map agent_cfg.username := by
  induction names generalizing acc with
  | nil => simp
  | cons n rest ih =>
    rw [agents_cfg_build_from] at h
    cases hl : ao2_link_reject acc (agent_cfg_alloc n) with
    | none => rw [hl] at h; exact absurd h (by simp)
    | some acc2 =>
      rw [hl] at h
      obtain ⟨hnodup, hrest⟩ := ih acc2 (link_reject_sorted acc _ acc2 hs hl) h
      have hn_in : n ∈ acc2.map agent_cfg.username :=
        (link_reject_keys_mem acc _ acc2 hl n).mpr (Or.inl rfl)
      have hn_notin : n ∉ acc.map agent_cfg.username :=
        link_reject_not_mem acc _ acc2 hs hl
      refine ⟨List.nodup_cons.mpr ⟨?_, hnodup⟩, ?_⟩
      · intro hmem
        exact hrest n hmem hn_in
      · intro m hm
        rcases List.mem_cons.mp hm with rfl | hm'
        · exact hn_notin
        · intro hmem
          exact hrest m hm' ((link_reject_keys_mem acc _ acc2 hl m).mpr (Or.inr hmem))

theorem build_nodup (names : List String) (l : List agent_cfg)
    (h : agents_cfg_build names = some l) : names.Nodup :=
  (build_from_nodup names [] l (by simp [cfgs_sorted]) h).1

/-! ### Claims -/

/-- Claim C1: a record with an active session (logged-in channel attached) is
never removed from the registry by a reconciliation pass; if its id is absent
from the new snapshot it is only flagged dead (mark cleared, dead set) and
remains registered — removal is deferred. -/
theorem C1_session_survives_reconcile (l : List agent_pvt) (cs : List agent_cfg)
    (k : String) (a : agent_pvt) (hs : agents_sorted l)
    (hfind : ao2_find_key l k = some a) (hchan : a.chan ≠ none) :
    (∃ a', ao2_find_key (agents_post_apply_config l cs) k = some a'
        ∧ a'.chan = a.chan) ∧
    (k ∉ cs.map agent_cfg.username →
      ao2_find_key (agents_post_apply_config l cs) k
        = some { a with the_mark := false, dead := true }) := by
  rw [post_apply_find l cs k hs, hfind]
  cases hf : first_cfg_for cs k with
  | some c =>
    refine ⟨⟨{ a with the_mark := false, dead := false }, rfl, rfl⟩, ?_⟩
    intro habs
    have hnone := (first_cfg_for_eq_none_iff cs k).mpr habs
    rw [hf] at hnone
    exact absurd hnone (by simp)
  | none =>
    have hcond : (if a.chan = none then (none : Option agent_pvt)
        else some { a with the_mark := false, dead := true })
        = some { a with the_mark := false, dead := true } := if_neg hchan
    exact ⟨⟨{ a with the_mark := false, dead := true }, hcond, rfl⟩, fun _ => hcond⟩

/-- Witness for C1 at a concrete logged-in record and the empty snapshot. -/
theorem C1_session_survives_reconcile_witness :
    agents_sorted [w_agent] ∧ ao2_find_key [w_agent] "1001" = some w_agent
    ∧ w_agent.chan ≠ none
    ∧ ((∃ a', ao2_find_key (agents_post_apply_config [w_agent] []) "1001" = some a'
          ∧ a'.chan = w_agent.chan) ∧
       ("1001" ∉ ([] : List agent_cfg).map agent_cfg.username →
         ao2_find_key (agents_post_apply_config [w_agent] []) "1001"
           = some { w_agent with the_mark := false, dead := true })) := by
  have hs : agents_sorted [w_agent] := by simp [agents_sorted]
  exact ⟨hs, by decide, by decide,
    C1_session_survives_reconcile [w_agent] [] "1001" w_agent hs (by decide) (by decide)⟩

/-- Claim C2: a record whose id is absent from the new snapshot and which has
no active session is removed by the sweep phase, and `state_of(id)`
(`agent_pvt_devstate_get`) subsequently returns `AST_DEVICE_INVALID`. -/
theorem C2_absent_idle_removed (l : List agent_pvt) (cs : List agent_cfg)
    (k : String) (a : agent_pvt) (hs : agents_sorted l)
    (hfind : ao2_find_key l k = some a) (hchan : a.chan = none)
    (habs : k ∉ cs.map agent_cfg.username) :
    ao2_find_key (agents_post_apply_config l cs) k = none ∧
    agent_pvt_devstate_get (agents_post_apply_config l cs) k
      = ast_device_state.INVALID := by
  have hf : first_cfg_for cs k = none := (first_cfg_for_eq_none_iff cs k).mpr habs
  have hmain : ao2_find_key (agents_post_apply_config l cs) k = none := by
    rw [post_apply_find l cs k hs, hfind, hf]
    show (if a.chan = none then (none : Option agent_pvt)
          else some { a with the_mark := false, dead := true }) = none
    rw [if_pos hchan]
  refine ⟨hmain, ?_⟩
  rw [agent_pvt_devstate_get, hmain]

/-- Witness for C2 at a concrete logged-out record and the empty snapshot. -/
theorem C2_absent_idle_removed_witness :
    agents_sorted [w_idle] ∧ ao2_find_key [w_idle] "1001" = some w_idle
    ∧ w_idle.chan = none
    ∧ "1001" ∉ ([] : List agent_cfg).map agent_cfg.username
    ∧ (ao2_find_key (agents_post_apply_config [w_idle] []) "1001" = none ∧
       agent_pvt_devstate_get (agents_post_apply_config [w_idle] []) "1001"
         = ast_device_state.INVALID) := by
  have hs : agents_sorted [w_idle] := by simp [agents_sorted]
  exact ⟨hs, by decide, by decide, by decide,
    C2_absent_idle_removed [w_idle] [] "1001" w_idle hs (by decide) (by decide)
      (by decide)⟩

/-- Claim C3: a record left dead by an earlier pass (while a session kept it
alive) is resurrected by a later pass whose snapshot again contains its id:
the sweep sets `dead := 0` because the match phase cleared the mark, and the
record's session channel is untouched. -/
theorem C3_resurrection (l : List agent_pvt) (cs : List agent_cfg)
    (k : String) (a : agent_pvt) (hs : agents_sorted l)
    (hfind : ao2_find_key l k = some a) (_hdead : a.dead = true)
    (hpres : k ∈ cs.map agent_cfg.username) :
    ao2_find_key (agents_post_apply_config l cs) k
      = some { a with the_mark := false, dead := false }
    ∧ ({ a with the_mark := false, dead := false } : agent_pvt).chan = a.chan := by
  cases hf : first_cfg_for cs k with
  | none => exact absurd hpres ((first_cfg_for_eq_none_iff cs k).mp hf)
  | some c =>
    refine ⟨?_, rfl⟩
    rw [post_apply_find l cs k hs, hfind, hf]

/-- Witness for C3 at a concrete dead, logged-in record whose id reappears. -/
theorem C3_resurrection_witness :
    agents_sorted [w_dead] ∧ ao2_find_key [w_dead] "1001" = some w_dead
    ∧ w_dead.dead = true
    ∧ "1001" ∈ [agent_cfg_alloc "1001"].map agent_cfg.username
    ∧ (ao2_find_key (agents_post_apply_config [w_dead] [agent_cfg_alloc "1001"]) "1001"
        = some { w_dead with the_mark := false, dead := false }
      ∧ ({ w_dead with the_mark := false, dead := false } : agent_pvt).chan
        = w_dead.chan) := by
  have hs : agents_sorted [w_dead] := by simp [agents_sorted]
  exact ⟨hs, by decide, by decide, by decide,
    C3_resurrection [w_dead] [agent_cfg_alloc "1001"] "1001" w_dead hs (by decide)
      (by decide) (by decide)⟩

/-- Claim C4: for an id present in both the registry and the new snapshot,
the pass only clears the record's mark (and clears dead): the record derives
from the old one — session channel, device state, per-session overrides,
timestamps and the bound definition reference are all unchanged, and the
record is not rebound to the snapshot's definition for that id. -/
theorem C4_present_id_frame (l : List agent_pvt) (cs : List agent_cfg)
    (k : String) (a : agent_pvt) (c : agent_cfg) (hs : agents_sorted l)
    (hfind : ao2_find_key l k = some a) (hcfg : first_cfg_for cs k = some c) :
    ∃ r, ao2_find_key (agents_post_apply_config l cs) k = some r
      ∧ r = { a with the_mark := false, dead := false }
      ∧ r.chan = a.chan
      ∧ r.state = a.state
      ∧ r.flags = a.flags
      ∧ r.override_dtmf_accept = a.override_dtmf_accept
      ∧ r.override_dtmf_end = a.override_dtmf_end
      ∧ r.override_max_login_tries = a.override_max_login_tries
      ∧ r.override_auto_logoff = a.override_auto_logoff
      ∧ r.override_wrapup_time = a.override_wrapup_time
      ∧ r.override_ack_call = a.override_ack_call
      ∧ r.override_end_call = a.override_end_call
      ∧ r.start_login = a.start_login
      ∧ r.start_call = a.start_call
      ∧ r.last_disconnect = a.last_disconnect
      ∧ r.cfg = a.cfg
      ∧ (a.cfg ≠ c → r.cfg ≠ c) := by
  refine ⟨{ a with the_mark := false, dead := false }, ?_, rfl, rfl, rfl, rfl, rfl,
    rfl, rfl, rfl, rfl, rfl, rfl, rfl, rfl, rfl, rfl, fun h => h⟩
  rw [post_apply_find l cs k hs, hfind, hcfg]

/-- Witness for C4 at a concrete logged-in record whose id stays configured. -/
theorem C4_present_id_frame_witness :
    agents_sorted [w_agent] ∧ ao2_find_key [w_agent] "1001" = some w_agent
    ∧ first_cfg_for [agent_cfg_alloc "1001"] "1001" = some (agent_cfg_alloc "1001")
    ∧ (∃ r, ao2_find_key
          (agents_post_apply_config [w_agent] [agent_cfg_alloc "1001"]) "1001"
          = some r
        ∧ r = { w_agent with the_mark := false, dead := false }
        ∧ r.chan = w_agent.chan
        ∧ r.state = w_agent.state
        ∧ r.flags = w_agent.flags
        ∧ r.override_dtmf_accept = w_agent.override_dtmf_accept
        ∧ r.override_dtmf_end = w_agent.override_dtmf_end
        ∧ r.override_max_login_tries = w_agent.override_max_login_tries
        ∧ r.override_auto_logoff = w_agent.override_auto_logoff
        ∧ r.override_wrapup_time = w_agent.override_wrapup_time
        ∧ r.override_ack_call = w_agent.override_ack_call
        ∧ r.override_end_call = w_agent.override_end_call
        ∧ r.start_login = w_agent.start_login
        ∧ r.start_call = w_agent.start_call
        ∧ r.last_disconnect = w_agent.last_disconnect
        ∧ r.cfg = w_agent.cfg
        ∧ (w_agent.cfg ≠ agent_cfg_alloc "1001" → r.cfg ≠ agent_cfg_alloc "1001")) := by
  have hs : agents_sorted [w_agent] := by simp [agents_sorted]
  exact ⟨hs, by decide, by decide,
    C4_present_id_frame [w_agent] [agent_cfg_alloc "1001"] "1001" w_agent
      (agent_cfg_alloc "1001") hs (by decide) (by decide)⟩

/-- Claim C5: reconciliation is idempotent — applying the same snapshot twice
with no intervening logins/logouts yields, for every id, exactly the same
lookup result (hence the same membership and the same mark/dead flags) as
after the first pass. -/
theorem C5_reconcile_idempotent (l : List agent_pvt) (cs : List agent_cfg)
    (hs : agents_sorted l) (k : String) :
    ao2_find_key (agents_post_apply_config (agents_post_apply_config l cs) cs) k
      = ao2_find_key (agents_post_apply_config l cs) k := by
  have hs1 := post_apply_sorted l cs hs
  rw [post_apply_find _ cs k hs1, post_apply_find l cs k hs]
  cases hf : first_cfg_for cs k with
  | some c =>
    cases hl : ao2_find_key l k with
    | some a => rfl
    | none => rfl
  | none =>
    cases hl : ao2_find_key l k with
    | none => rfl
    | some a =>
      cases hc : a.chan with
      | none => simp [hc]
      | some ch => simp [hc]

/-- Witness for C5 at a concrete one-record registry and empty snapshot. -/
theorem C5_reconcile_idempotent_witness :
    agents_sorted [w_agent] ∧
    ao2_find_key
        (agents_post_apply_config (agents_post_apply_config [w_agent] []) [])
        "1001"
      = ao2_find_key (agents_post_apply_config [w_agent] []) "1001" := by
  have hs : agents_sorted [w_agent] := by simp [agents_sorted]
  exact ⟨hs, C5_reconcile_idempotent [w_agent] [] hs "1001"⟩

/-- Claim C6: a record constructed by the match/insert phase for a new id has
default state LOGGED_OUT (`AST_DEVICE_UNAVAILABLE`), no attached channel, no
overrides, mark = false and dead = false; and loading a config with the
single agent `1001` into an empty registry yields exactly one record, id
`1001`, in that state. -/
theorem C6_new_record_logged_out (cfg : agent_cfg) :
    (agent_pvt_new cfg).state = ast_device_state.UNAVAILABLE
    ∧ spec_state (agent_pvt_new cfg).state = SpecDeviceState.LOGGED_OUT
    ∧ (agent_pvt_new cfg).chan = none
    ∧ (agent_pvt_new cfg).the_mark = false
    ∧ (agent_pvt_new cfg).dead = false
    ∧ (agent_pvt_new cfg).flags = 0
    ∧ (agent_pvt_new cfg).override_dtmf_accept = ""
    ∧ (agent_pvt_new cfg).override_dtmf_end = ""
    ∧ (agent_pvt_new cfg).override_max_login_tries = 0
    ∧ (agent_pvt_new cfg).override_auto_logoff = 0
    ∧ (agent_pvt_new cfg).override_wrapup_time = 0
    ∧ (agent_pvt_new cfg).username = cfg.username
    ∧ (agent_pvt_new cfg).cfg = cfg
    ∧ agents_post_apply_config [] [agent_cfg_alloc "1001"]
        = [agent_pvt_new (agent_cfg_alloc "1001")]
    ∧ (agent_pvt_new (agent_cfg_alloc "1001")).username = "1001"
    ∧ (agent_pvt_new (agent_cfg_alloc "1001")).state
        = ast_device_state.UNAVAILABLE :=
  ⟨rfl, rfl, rfl, rfl, rfl, rfl, rfl, rfl, rfl, rfl, rfl, rfl, rfl, rfl, rfl, rfl⟩

/-- Claim C7: a snapshot in which two definitions carry the same id is
rejected in full, and the rejected reload keeps the prior snapshot and the
registry untouched (`reload` returns `-1` with the state unchanged). -/
theorem C7_duplicate_snapshot_rejected (st : module_state) (names : List String)
    (hdup : ¬ names.Nodup) :
    reload st names = (-1, st) := by
  cases hb : agents_cfg_build names with
  | none => rw [reload, hb]
  | some l => exact absurd (build_nodup names l hb) hdup

/-- Witness for C7: a config listing agent `1001` twice is rejected and the
module state survives unchanged. -/
theorem C7_duplicate_snapshot_rejected_witness :
    ¬ (["1001", "1001"] : List String).Nodup
    ∧ reload { cfgs := [agent_cfg_alloc "1001"], agents := [w_agent] }
        ["1001", "1001"]
      = (-1, { cfgs := [agent_cfg_alloc "1001"], agents := [w_agent] }) :=
  ⟨by decide,
    C7_duplicate_snapshot_rejected
      { cfgs := [agent_cfg_alloc "1001"], agents := [w_agent] }
      ["1001", "1001"] (by decide)⟩

/-- Claim C8: no mark value leaks across reconciliation passes — every record
in the registry produced by `agents_post_apply_config` has `the_mark = false`
(the sweep clears the mark of records it flags dead, survivors had theirs
cleared by the match phase, and new records start unmarked), so the mark flag
is false at the end of a pass and therefore at the start of the next. -/
theorem C8_mark_false_after_pass (l : List agent_pvt) (cs : List agent_cfg)
    (a : agent_pvt) (ha : a ∈ agents_post_apply_config l cs) :
    a.the_mark = false := by
  rw [agents_post_apply_config] at ha
  exact agents_sweep_mem_mark_false _ a ha

/-- Witness for C8 at a concrete pass over one marked record. -/
theorem C8_mark_false_after_pass_witness :
    ({ w_agent with the_mark := false, dead := true } : agent_pvt)
        ∈ agents_post_apply_config [{ w_agent with the_mark := true }] []
    ∧ ({ w_agent with the_mark := false, dead := true } : agent_pvt).the_mark
        = false :=
  ⟨by decide,
    C8_mark_false_after_pass [{ w_agent with the_mark := true }] []
      { w_agent with the_mark := false, dead := true } (by decide)⟩

/-- Counterexample to claim C9 as stated: the registry container is created
with `AO2_CONTAINER_ALLOC_OPT_DUPS_REPLACE`, so linking a second record with
the already-present id `1001` does not no-op — it replaces the existing
record, which is no longer in the registry afterwards. -/
theorem C9_counterexample :
    ao2_link_replace [c9_old] c9_new = [c9_new]
    ∧ c9_old ∉ ao2_link_replace [c9_old] c9_new
    ∧ c9_old ≠ c9_new := by
  have hlt : ¬ c9_new.username < c9_old.username := by
    show ¬ ("1001" : String) < "1001"
    exact lt_irrefl _
  have heq : c9_new.username = c9_old.username := rfl
  have hrepl : ao2_link_replace [c9_old] c9_new = [c9_new] := by
    show (if c9_new.username < c9_old.username then c9_new :: c9_old :: []
          else if c9_new.username = c9_old.username then c9_new :: []
          else c9_old :: ao2_link_replace [] c9_new) = [c9_new]
    rw [if_neg hlt, if_pos heq]
  refine ⟨hrepl, ?_, by decide⟩
  rw [hrepl]
  intro hmem
  rw [List.mem_singleton] at hmem
  exact absurd hmem (by decide)

/-- Claim C9 (amended): the registry's insert (`ao2_link` on the
`DUPS_REPLACE` container of `load_module`) is insert-or-replace: after
linking a record, lookup of its id yields exactly that record (an existing
record with the same id has been replaced), and lookups of every other id
are unaffected. -/
theorem C9_insert_replaces (l : List agent_pvt) (r : agent_pvt) :
    ao2_find_key (ao2_link_replace l r) r.username = some r
    ∧ ∀ k, k ≠ r.username →
        ao2_find_key (ao2_link_replace l r) k = ao2_find_key l k :=
  ⟨link_replace_find_self l r, fun k hk => link_replace_find_other l r k hk⟩

/-- Witness for the amended C9 at a concrete replacement. -/
theorem C9_insert_replaces_witness :
    ao2_find_key (ao2_link_replace [c9_old] c9_new) c9_new.username = some c9_new
    ∧ ao2_find_key (ao2_link_replace [c9_old] c9_new) "1002"
        = ao2_find_key [c9_old] "1002" :=
  ⟨(C9_insert_replaces [c9_old] c9_new).1,
    (C9_insert_replaces [c9_old] c9_new).2 "1002" (by decide)⟩

/-- Claim C10: the `custom_beep` handler rejects an empty value with an error
and, for any non-empty value, stores the empty string into `beep_sound`
(discarding the supplied value), so a loaded definition's `beep_sound` is
always the empty string. -/
theorem C10_custom_beep_discards_value (cfg : agent_cfg) (v : String) :
    (v = "" → agent_custom_beep_handler v cfg = none)
    ∧ (v ≠ "" → agent_custom_beep_handler v cfg
        = some { cfg with beep_sound := "" }) := by
  constructor
  · rintro rfl
    rfl
  · intro h
    have hzero : ast_strlen_zero v = false := by
      rw [ast_strlen_zero]
      by_contra hc
      rw [Bool.not_eq_false] at hc
      exact h ((String.isEmpty_iff v).mp hc)
    rw [agent_custom_beep_handler, hzero]
    rfl

/-- Witness for C10: the empty value errors; the value `chime` is discarded
and `beep_sound` ends up empty. -/
theorem C10_custom_beep_discards_value_witness :
    agent_custom_beep_handler "" (agent_cfg_alloc "1001") = none
    ∧ agent_custom_beep_handler "chime" (agent_cfg_alloc "1001")
        = some { agent_cfg_alloc "1001" with beep_sound := "" } :=
  ⟨(C10_custom_beep_discards_value (agent_cfg_alloc "1001") "").1 rfl,
    (C10_custom_beep_discards_value (agent_cfg_alloc "1001") "chime").2 (by decide)⟩

end AgentPool
